import Mathlib

/-!
Shallow embedding of the parallel task orchestrator of this repository
(`src/api_simulator.py` and `src/thread_manager.py`) together with proofs
of the specified properties.

Modelling conventions:
- Python floats (durations, failure rates, geographic coordinates, randomly
  drawn values) are modelled as rationals `ℚ`; wall-clock timestamps returned
  by `time.time()` are modelled as integers `Int` supplied by the execution
  trace.
- Randomness (`random.uniform`, `random.random`, `random.randint`,
  `random.choice`) is modelled by threading an explicit record of the values
  drawn from the PRNG into the call.
- The mutable heap of Python task objects is modelled explicitly: the task
  dict maps a name to the index (reference) of an `APITask` record in a store,
  so that aliasing between the manager's dict and returned snapshots is
  captured faithfully.
- Each `with self._lock:` block of a worker is one atomic step of a small-step
  trace semantics; observation points are the states reached after each step.
-/

/-- Configuration for a simulated API (mirrors dataclass `SimulatedAPI` in
`api_simulator.py`). Float fields are modelled as rationals. -/
structure SimulatedAPI where
  name : String
  min_duration : ℚ
  max_duration : ℚ
  failure_rate : ℚ
  deriving DecidableEq

/-- Geographic bounding box (mirrors dataclass `GeoBox`). -/
structure GeoBox where
  min_lat : ℚ
  min_lon : ℚ
  max_lat : ℚ
  max_lon : ℚ
  deriving DecidableEq

/-- Python `datetime` value, modelled by its `isoformat()` rendering, which is
the only operation the repository applies to it. -/
structure PyDateTime where
  iso : String
  deriving DecidableEq

/-- Time range for the query (mirrors dataclass `TimeRange`). The source field
`end` is called `end_` here because `end` is reserved in Lean. -/
structure TimeRange where
  start : PyDateTime
  end_ : PyDateTime
  deriving DecidableEq

/-- Scalar JSON-like value occurring in the mock payload dicts. -/
inductive PyScalar where
  | str (s : String)
  | rat (q : ℚ)
  | int (n : Int)
  deriving DecidableEq

/-- Value of a top-level key of the mock payload: either a scalar or a nested
dict of scalars (the payloads of `_generate_mock_data` nest exactly one level). -/
inductive PyVal where
  | scalar (v : PyScalar)
  | dict (d : List (String × PyScalar))
  deriving DecidableEq

/-- Mock payload: insertion-ordered Python dict, modelled as an association list. -/
abbrev MockData : Type := List (String × PyVal)

/-- Result from a simulated API call (mirrors dataclass `APIResult`; the
`data` and `error` fields default to `None` exactly as in the source). -/
structure APIResult where
  success : Bool
  data : Option MockData := none
  error : Option String := none
  deriving DecidableEq

/-- Python `round(q, d)` on a rational, used by `_generate_mock_data`
(ties, which float round-half-even and exact rationals resolve differently,
do not matter to any property proved here). -/
def roundTo (q : ℚ) (d : Nat) : ℚ :=
  ((round (q * (10 : ℚ) ^ d) : ℤ) : ℚ) / (10 : ℚ) ^ d

/-- Model of `random.uniform(a, b)`: the PRNG draw `u ∈ [0,1)` is explicit. -/
def uniform (a b u : ℚ) : ℚ := a + (b - a) * u

/-- Model of `random.randint(a, b)` (both endpoints inclusive): the PRNG draw
`n` is explicit and reduced into the requested range. -/
def randint (a b : Int) (n : Nat) : Int := a + Int.ofNat (n % (b - a + 1).toNat)

/-- Resolution values offered by `random.choice([10, 30, 60])`. -/
def resolutions : List Int := [10, 30, 60]

/-- PRNG draws consumed by `_generate_mock_data`, in drawing order per branch. -/
structure DataRand where
  u1 : ℚ
  u2 : ℚ
  u3 : ℚ
  u4 : ℚ
  n1 : Nat
  c3 : Fin 3
  deriving DecidableEq

/-- Mock payload generation (mirrors `_generate_mock_data` in
`api_simulator.py`): a base dict plus one API-specific nested dict. -/
def generate_mock_data (api_name query_name : String) (time_range : TimeRange)
    (geo_box : GeoBox) (dr : DataRand) : MockData :=
  let base : MockData := [
    ("query_name", PyVal.scalar (PyScalar.str query_name)),
    ("time_range", PyVal.dict [
      ("start", PyScalar.str time_range.start.iso),
      ("end", PyScalar.str time_range.end_.iso)]),
    ("geo_box", PyVal.dict [
      ("min_lat", PyScalar.rat geo_box.min_lat),
      ("min_lon", PyScalar.rat geo_box.min_lon),
      ("max_lat", PyScalar.rat geo_box.max_lat),
      ("max_lon", PyScalar.rat geo_box.max_lon)])]
  if api_name = "Weather API" then
    base ++ [("weather", PyVal.dict [
      ("temperature_avg", PyScalar.rat (roundTo (uniform 10 35 dr.u1) 1)),
      ("humidity_avg", PyScalar.rat (roundTo (uniform 30 90 dr.u2) 1)),
      ("precipitation_mm", PyScalar.rat (roundTo (uniform 0 50 dr.u3) 1)),
      ("wind_speed_kmh", PyScalar.rat (roundTo (uniform 0 30 dr.u4) 1))])]
  else if api_name = "Satellite Data API" then
    base ++ [("satellite", PyVal.dict [
      ("cloud_cover_pct", PyScalar.rat (roundTo (uniform 0 100 dr.u1) 1)),
      ("ndvi_avg", PyScalar.rat (roundTo (uniform (-0.2) 0.8 dr.u2) 3)),
      ("images_available", PyScalar.int (randint 5 50 dr.n1)),
      ("resolution_m", PyScalar.int (resolutions.get ⟨dr.c3.val, dr.c3.isLt⟩))])]
  else if api_name = "Population API" then
    base ++ [("population", PyVal.dict [
      ("total_population", PyScalar.int (randint 10000 5000000 dr.n1)),
      ("density_per_km2", PyScalar.rat (roundTo (uniform 10 10000 dr.u1) 1)),
      ("urban_pct", PyScalar.rat (roundTo (uniform 20 95 dr.u2) 1))])]
  else if api_name = "Traffic API" then
    base ++ [("traffic", PyVal.dict [
      ("congestion_index", PyScalar.rat (roundTo (uniform 0 10 dr.u1) 2)),
      ("avg_speed_kmh", PyScalar.rat (roundTo (uniform 15 80 dr.u2) 1)),
      ("incidents_count", PyScalar.int (randint 0 20 dr.n1))])]
  else if api_name = "Air Quality API" then
    base ++ [("air_quality", PyVal.dict [
      ("aqi", PyScalar.int (randint 20 200 dr.n1)),
      ("pm25_ugm3", PyScalar.rat (roundTo (uniform 5 100 dr.u1) 1)),
      ("pm10_ugm3", PyScalar.rat (roundTo (uniform 10 150 dr.u2) 1)),
      ("o3_ppb", PyScalar.rat (roundTo (uniform 10 80 dr.u3) 1))])]
  else
    base

/-- Error messages drawn from by the failure branch of `simulate_api_call`. -/
def errorMessages : List String :=
  ["Connection timeout",
   "Rate limit exceeded",
   "Service temporarily unavailable",
   "Invalid response from server",
   "Authentication failed"]

/-- PRNG draws consumed by one `simulate_api_call` invocation, in drawing order. -/
structure Randomness where
  durU : ℚ
  failRoll : ℚ
  errIdx : Fin errorMessages.length
  dataRand : DataRand
  deriving DecidableEq

/-- Simulated API call (mirrors `simulate_api_call` in `api_simulator.py`).
The `time.sleep(duration)` of the source affects only timing, which the trace
semantics models separately; it does not influence the returned value. -/
def simulate_api_call (api : SimulatedAPI) (query_name : String)
    (time_range : TimeRange) (geo_box : GeoBox) (rnd : Randomness) : APIResult :=
  let _duration := uniform api.min_duration api.max_duration rnd.durU
  if rnd.failRoll < api.failure_rate then
    { success := false, error := some (errorMessages.get rnd.errIdx) }
  else
    { success := true,
      data := some (generate_mock_data api.name query_name time_range geo_box rnd.dataRand) }

/-- The five simulated APIs defined at module level in `api_simulator.py`. -/
def SIMULATED_APIS : List SimulatedAPI :=
  [{ name := "Weather API", min_duration := 1.0, max_duration := 2.0, failure_rate := 0.05 },
   { name := "Satellite Data API", min_duration := 3.0, max_duration := 5.0, failure_rate := 0.15 },
   { name := "Population API", min_duration := 2.0, max_duration := 3.0, failure_rate := 0.05 },
   { name := "Traffic API", min_duration := 1.0, max_duration := 2.0, failure_rate := 0.20 },
   { name := "Air Quality API", min_duration := 2.0, max_duration := 4.0, failure_rate := 0.08 }]

/-! ## Thread manager (`src/thread_manager.py`) -/

/-- Status of an API task (mirrors enum `APIStatus`). -/
inductive APIStatus where
  | pending
  | running
  | success
  | error
  deriving DecidableEq

/-- State of a single API task (mirrors dataclass `APITask`; `start_time` and
`end_time` hold `time.time()` stamps, modelled as integers). -/
structure APITask where
  api : SimulatedAPI
  status : APIStatus := APIStatus.pending
  start_time : Option Int := none
  end_time : Option Int := none
  result : Option APIResult := none
  deriving DecidableEq

/-- Fresh task record as built by `APITask(api=api)` in `submit_all`. -/
def initTask (api : SimulatedAPI) : APITask := { api := api }

/-- Placeholder record used only to totalise heap reads; no reachable state
dereferences a dangling reference (the heap is append-only). -/
def defaultTask : APITask :=
  initTask { name := "", min_duration := 0, max_duration := 0, failure_rate := 0 }

/-- First-match lookup in an insertion-ordered association list; this is
Python dict indexing `d[k]`. -/
def lookup' {α : Type} : List (String × α) → String → Option α
  | [], _ => none
  | p :: d, k => if p.1 = k then some p.2 else lookup' d k

/-- Python dict assignment `d[k] = v`: overwrite in place if the key exists
(keeping its position), otherwise append. -/
def dictInsert (d : List (String × Nat)) (k : String) (v : Nat) : List (String × Nat) :=
  if (d.map Prod.fst).contains k then
    d.map (fun p => if p.1 = k then (p.1, v) else p)
  else
    d ++ [(k, v)]

/-- Heap references allocated for the task records of a batch, paired with the
unit names, in iteration order: `b` is the next free heap address. -/
def pairsFrom (b : Nat) : List SimulatedAPI → List (String × Nat)
  | [] => []
  | a :: l => (a.name, b) :: pairsFrom (b + 1) l

/-- The dict comprehension `{api.name: APITask(api=api) for api in apis}` of
`submit_all`, as a map from names to heap references: one record is allocated
per unit, and duplicate names silently overwrite (Python dict semantics). -/
def buildTasks (b : Nat) (apis : List SimulatedAPI) : List (String × Nat) :=
  (pairsFrom b apis).foldl (fun d p => dictInsert d p.1 p.2) []

/-- State of a `ThreadManager` plus the heap of task records it owns.
`executor` records the pool size of the live `ThreadPoolExecutor`, if any. -/
structure TMState where
  heap : List APITask
  tasks : List (String × Nat)
  executor : Option Nat
  deriving DecidableEq

/-- A freshly constructed `ThreadManager()`. -/
def emptyTM : TMState := { heap := [], tasks := [], executor := none }

/-- Synchronous outcome of a `submit_all` call: the state it leaves behind,
the error it raised (if any), and the units actually handed to the pool. -/
structure SubmitResult where
  state : TMState
  raised : Option String
  submitted : List SimulatedAPI
  deriving DecidableEq

/-- The `submit_all` method. Under the lock the task dict is replaced by the
freshly built one (allocating one record per unit); then
`ThreadPoolExecutor(max_workers=len(apis))` is created, which raises
`ValueError` when `len(apis) == 0`; then one worker per element of `apis` is
submitted. No validation of emptiness or duplicate names is performed. -/
def submit_all (m : TMState) (apis : List SimulatedAPI) : SubmitResult :=
  let m1 : TMState :=
    { m with heap := m.heap ++ apis.map initTask, tasks := buildTasks m.heap.length apis }
  if apis.isEmpty then
    { state := m1,
      raised := some "ValueError: max_workers must be greater than 0",
      submitted := [] }
  else
    { state := { m1 with executor := some apis.length }, raised := none, submitted := apis }

/-- State reached right after `ThreadManager().submit_all(apis, ...)`. -/
def initState (apis : List SimulatedAPI) : TMState := (submit_all emptyTM apis).state

/-- Outcome of the `simulate_api_call(...)` invocation inside `_run_task`:
either it returned an `APIResult`, or it raised and `str(e)` is `msg`. -/
inductive WorkResult where
  | ok (r : APIResult)
  | exn (msg : String)
  deriving DecidableEq

/-- One locked section executed by a worker thread in `_run_task`:
either the initial block marking its task Running with `start_time = now`,
or the final block recording the outcome with `end_time = now`. -/
inductive Event where
  | start (nm : String) (t : Int)
  | finish (nm : String) (t : Int) (w : WorkResult)
  deriving DecidableEq

/-- Name of the unit whose worker performs the event. -/
def Event.name : Event → String
  | Event.start nm _ => nm
  | Event.finish nm _ _ => nm

/-- Whether the event is the final (outcome-recording) locked section. -/
def Event.isFinish : Event → Bool
  | Event.start _ _ => false
  | Event.finish _ _ _ => true

/-- The `APIResult(success=False, error=str(e))` built by the `except` branch
of `_run_task`. -/
def exnResult (msg : String) : APIResult := { success := false, error := some msg }

/-- Effect of one locked section of `_run_task` on the worker's own task
record. The first block sets status Running and `start_time`; the second sets
`end_time`, `result`, and the status derived from `result.success`, or, when
`simulate_api_call` raised, a Failure result built from the message. -/
def applyEv (e : Event) (t : APITask) : APITask :=
  match e with
  | Event.start _ tm => { t with status := APIStatus.running, start_time := some tm }
  | Event.finish _ tm w =>
    match w with
    | WorkResult.ok r =>
      { t with end_time := some tm, result := some r,
               status := if r.success then APIStatus.success else APIStatus.error }
    | WorkResult.exn msg =>
      { t with end_time := some tm, result := some (exnResult msg),
               status := APIStatus.error }

/-- Update the heap record at reference `r` in place. -/
def listUpdate {α : Type} : List α → Nat → (α → α) → List α
  | [], _, _ => []
  | a :: l, 0, f => f a :: l
  | a :: l, n + 1, f => a :: listUpdate l n f

/-- Small-step transition: the worker performing event `e` looks up
`self.tasks[api.name]` under the lock and mutates that record. -/
def step (m : TMState) (e : Event) : TMState :=
  match lookup' m.tasks e.name with
  | none => m
  | some r => { m with heap := listUpdate m.heap r (applyEv e) }

/-- Run a batch: fold the trace of locked sections over the state. -/
def run (m : TMState) (evs : List Event) : TMState := evs.foldl step m

/-- Cumulative effect of a list of locked sections on one task record. -/
def applyEvs (t : APITask) (l : List Event) : APITask :=
  l.foldl (fun t e => applyEv e t) t

/-- The events of the trace performed by the worker of unit `nm`. -/
def eventsFor (nm : String) (evs : List Event) : List Event :=
  evs.filter (fun e => e.name == nm)

/-- Well-formed tail of one worker's event sequence after its start event at
time `t`: at most one finish event, not earlier than the start (`time.time()`
is assumed nondecreasing between the two lock acquisitions of one worker). -/
def seqTail (t : Int) : List Event → Bool
  | [] => true
  | Event.finish _ t2 _ :: rest => rest.isEmpty && decide (t ≤ t2)
  | Event.start _ _ :: _ => false

/-- Well-formed event sequence of a single worker: it marks its task Running
first, then finishes it at most once. -/
def taskSeqOK : List Event → Bool
  | [] => true
  | Event.start _ t :: rest => seqTail t rest
  | Event.finish _ _ _ :: _ => false

/-- Well-formed trace of one batch over units named `names`: every event
belongs to a unit of the batch, and each unit's worker produces a well-formed
sequence. -/
def validTrace (names : List String) (evs : List Event) : Bool :=
  evs.all (fun e => names.contains e.name) &&
  names.all (fun n => taskSeqOK (eventsFor n evs))

/-- Number of completed `simulate_api_call` invocations for unit `nm` in the
trace (each finish event records the return or raise of exactly one call). -/
def workCalls (nm : String) (evs : List Event) : Nat :=
  ((eventsFor nm evs).filter Event.isFinish).length

/-- A trace in which every unit's work call has completed. -/
def completeTrace (names : List String) (evs : List Event) : Bool :=
  names.all (fun n => 1 ≤ workCalls n evs)

/-- Read the task record at heap reference `r` (total; reachable states never
hold dangling references). -/
def heapAt (h : List APITask) (r : Nat) : APITask := (h.get? r).getD defaultTask

/-- The manager's task map as the observer sees it: names paired with the
current contents of the referenced records. -/
def taskMap (m : TMState) : List (String × APITask) :=
  m.tasks.map (fun p => (p.1, heapAt m.heap p.2))

/-- The `get_tasks` method: `dict(self.tasks)` copies the name-to-record
mapping only; the records themselves are shared (a shallow copy). -/
def get_tasks (m : TMState) : List (String × Nat) := m.tasks

/-- Read a previously returned snapshot against the current heap: each entry
still references the manager's live record. -/
def readSnapshot (snap : List (String × Nat)) (h : List APITask) : List (String × APITask) :=
  snap.map (fun p => (p.1, heapAt h p.2))

/-- Terminal statuses. -/
def isTerminal (s : APIStatus) : Bool :=
  s == APIStatus.success || s == APIStatus.error

/-- The `is_complete` method: `False` on an empty task dict, otherwise whether
every task's status is SUCCESS or ERROR. -/
def is_complete (m : TMState) : Bool :=
  if m.tasks.isEmpty then false
  else (taskMap m).all (fun p => isTerminal p.2.status)

/-- The `shutdown` method: tear down the executor if one is live, else no-op. -/
def shutdown (m : TMState) : TMState :=
  match m.executor with
  | some _ => { m with executor := none }
  | none => m

/-- The `elapsed_time` property of `APITask` at current clock `now`: `None`
before the task started; otherwise the difference to `end_time` if that is
set and nonzero, else to the clock (the source tests `if self.end_time`,
which is Python truthiness, so an `end_time` equal to `0` falls back to the
clock as well). -/
def elapsed_time (t : APITask) (now : Int) : Option Int :=
  match t.start_time with
  | none => none
  | some st =>
    let e : Int :=
      match t.end_time with
      | some et => if et = 0 then now else et
      | none => now
    some (e - st)

/-- Rendering of `f"{elapsed:.1f}s"` at integer-valued elapsed times. -/
def format1f (e : Int) : String := toString e ++ ".0s"

/-- The `elapsed_time_str` property of `APITask` at current clock `now`. -/
def elapsed_time_str (t : APITask) (now : Int) : String :=
  match elapsed_time t now with
  | none => "..."
  | some e => format1f e

/-- Field-presence invariant of a task record (spec §3): `end_time` set iff
terminal, `start_time` set iff not Pending, `result` present iff terminal,
and `end_time ≥ start_time` when both are present. -/
def taskInv (t : APITask) : Bool :=
  (t.end_time.isSome == isTerminal t.status) &&
  (t.start_time.isSome == !(t.status == APIStatus.pending)) &&
  (t.result.isSome == isTerminal t.status) &&
  (match t.start_time, t.end_time with
   | some a, some b => decide (a ≤ b)
   | _, _ => true)

/-- Rank of a status along the lifecycle Pending → Running → terminal. -/
def statusRank : APIStatus → Nat
  | APIStatus.pending => 0
  | APIStatus.running => 1
  | APIStatus.success => 2
  | APIStatus.error => 2

/-- Every status a task record can hold (the four enum members of `APIStatus`). -/
def statusOK4 (s : APIStatus) : Bool :=
  s == APIStatus.pending || s == APIStatus.running ||
  s == APIStatus.success || s == APIStatus.error

/-- Index of the first occurrence of a name in a list, used to characterise
dict lookups on the freshly built task map. -/
def idxOf? : List String → String → Option Nat
  | [], _ => none
  | n :: l, k => if n = k then some 0 else (idxOf? l k).map (· + 1)

/-! Concrete instances used by witnesses and counterexamples. -/

/-- Sample unit named `A`. -/
def apiA : SimulatedAPI := { name := "A", min_duration := 0, max_duration := 1, failure_rate := 0 }

/-- Sample unit named `B`. -/
def apiB : SimulatedAPI := { name := "B", min_duration := 0, max_duration := 1, failure_rate := 0 }

/-- Second sample unit also named `A` (duplicate id). -/
def apiA2 : SimulatedAPI := { name := "A", min_duration := 2, max_duration := 3, failure_rate := 1 }

/-- Sample successful work outcome. -/
def okResult : APIResult := { success := true, data := some [] }

/-- Sample batch of two units. -/
def apisAB : List SimulatedAPI := [apiA, apiB]

/-- Sample complete trace of the batch `apisAB` in which unit `A`'s work call
raises with an empty `str(e)` and unit `B` succeeds. -/
def evsAB : List Event :=
  [Event.start "A" 0, Event.start "B" 1,
   Event.finish "A" 2 (WorkResult.exn ""),
   Event.finish "B" 3 (WorkResult.ok okResult)]

/-- First half of `evsAB` (an observation point mid-flight). -/
def preAB : List Event := [Event.start "A" 0, Event.start "B" 1]

/-- Second half of `evsAB`. -/
def sufAB : List Event :=
  [Event.finish "A" 2 (WorkResult.exn ""), Event.finish "B" 3 (WorkResult.ok okResult)]

/-- Sample complete trace of `apisAB` in which unit `A`'s work call raises
with description `boom` and unit `B` succeeds. -/
def evsBoom : List Event :=
  [Event.start "A" 0, Event.start "B" 1,
   Event.finish "A" 2 (WorkResult.exn "boom"),
   Event.finish "B" 3 (WorkResult.ok okResult)]

/-- Task record with both timestamps set and a nonzero `end_time`. -/
def taskW : APITask :=
  { api := apiA, status := APIStatus.success, start_time := some 3, end_time := some 5,
    result := some okResult }

/-- Task record whose `end_time` is the (falsy) timestamp `0`. -/
def taskZ : APITask :=
  { api := apiA, status := APIStatus.success, start_time := some 3, end_time := some 0,
    result := some okResult }

/-- Running-state record of unit `A` after the two start events of `preAB`. -/
def tRun : APITask :=
  { api := apiA, status := APIStatus.running, start_time := some 0,
    end_time := none, result := none }

/-- Failed-state record of unit `A` after its fault is recorded. -/
def tErr : APITask :=
  { api := apiA, status := APIStatus.error, start_time := some 0,
    end_time := some 2, result := some (exnResult "") }

/-- Exactly-one-variant discipline of an `APIResult`: a success carries data
and no error, a failure carries an error and no data. -/
def exactlyOneVariant (r : APIResult) : Bool :=
  if r.success then r.data.isSome && r.error.isNone
  else r.error.isSome && r.data.isNone

/-! ## Infrastructure lemmas -/

theorem get?_listUpdate {α : Type} (l : List α) (i j : Nat) (f : α → α) :
    (listUpdate l i f).get? j = if i = j then (l.get? j).map f else l.get? j := by
  induction l generalizing i j with
  | nil => simp [listUpdate]
  | cons a l ih =>
    cases i with
    | zero =>
      cases j with
      | zero => simp [listUpdate]
      | succ j => simp [listUpdate]
    | succ i =>
      cases j with
      | zero => simp [listUpdate]
      | succ j => simpa [listUpdate] using ih i j

theorem step_tasks (m : TMState) (e : Event) : (step m e).tasks = m.tasks := by
  unfold step
  cases lookup' m.tasks e.name <;> rfl

theorem step_executor (m : TMState) (e : Event) : (step m e).executor = m.executor := by
  unfold step
  cases lookup' m.tasks e.name <;> rfl

theorem run_tasks (m : TMState) (evs : List Event) : (run m evs).tasks = m.tasks := by
  induction evs generalizing m with
  | nil => rfl
  | cons e evs ih =>
    show (run (step m e) evs).tasks = m.tasks
    rw [ih (step m e), step_tasks]

theorem run_heap (m : TMState) (evs : List Event) (r : Nat) :
    (run m evs).heap.get? r =
      (m.heap.get? r).map
        (fun t => applyEvs t (evs.filter (fun e => decide (lookup' m.tasks e.name = some r)))) := by
  induction evs generalizing m with
  | nil =>
    rw [show run m [] = m from rfl, show List.filter _ [] = ([] : List Event) from rfl]
    cases h : m.heap.get? r <;> rfl
  | cons e evs ih =>
    have hstep : run m (e :: evs) = run (step m e) evs := rfl
    rw [hstep, ih (step m e), step_tasks]
    cases hd : lookup' m.tasks e.name with
    | none =>
      have hm : step m e = m := by unfold step; rw [hd]
      rw [hm]
      simp [List.filter_cons, hd]
    | some r' =>
      have hheap : (step m e).heap = listUpdate m.heap r' (applyEv e) := by
        unfold step; rw [hd]
      rw [hheap, get?_listUpdate]
      by_cases hrr : r' = r
      · subst hrr
        simp only [if_pos rfl, List.filter_cons, hd]
        cases h : m.heap.get? r' <;> simp [h, applyEvs]
      · simp only [if_neg hrr, List.filter_cons, hd]
        cases h : m.heap.get? r <;> simp [h, applyEvs, hrr]

theorem pairsFrom_get? (l : List SimulatedAPI) (b i : Nat) :
    (pairsFrom b l).get? i = (l.get? i).map (fun a => (a.name, b + i)) := by
  induction l generalizing b i with
  | nil => simp [pairsFrom]
  | cons a l ih =>
    cases i with
    | zero => simp [pairsFrom]
    | succ i =>
      have hb : b + 1 + i = b + (i + 1) := by omega
      show (pairsFrom (b + 1) l).get? i = _
      rw [ih (b + 1) i, hb]
      rfl

theorem pairsFrom_keys (l : List SimulatedAPI) (b : Nat) :
    (pairsFrom b l).map Prod.fst = l.map (fun a => a.name) := by
  induction l generalizing b with
  | nil => rfl
  | cons a l ih => simp [pairsFrom, ih]

theorem idxOf?_get? (l : List String) (k : String) (i : Nat)
    (h : idxOf? l k = some i) : l.get? i = some k := by
  induction l generalizing i with
  | nil => simp [idxOf?] at h
  | cons n l ih =>
    by_cases hn : n = k
    · simp [idxOf?, hn] at h
      subst h
      simp [hn]
    · simp [idxOf?, hn] at h
      obtain ⟨j, hj, rfl⟩ := h
      rw [List.get?_cons_succ]
      exact ih j hj

theorem get?_idxOf? (l : List String) (hnd : l.Nodup) (k : String) (i : Nat)
    (h : l.get? i = some k) : idxOf? l k = some i := by
  induction l generalizing i with
  | nil => simp at h
  | cons n l ih =>
    rcases List.nodup_cons.mp hnd with ⟨hn, hl⟩
    cases i with
    | zero =>
      rw [List.get?_cons_zero] at h
      have hnk : n = k := Option.some.inj h
      simp [idxOf?, hnk]
    | succ i =>
      rw [List.get?_cons_succ] at h
      have hk : k ∈ l := List.get?_mem h
      have hnk : n ≠ k := fun he => hn (he ▸ hk)
      simp [idxOf?, hnk, ih hl i h]

theorem lookup'_pairsFrom (l : List SimulatedAPI) (b : Nat) (nm : String) :
    lookup' (pairsFrom b l) nm = (idxOf? (l.map (fun a => a.name)) nm).map (b + ·) := by
  induction l generalizing b with
  | nil => rfl
  | cons a l ih =>
    by_cases ha : a.name = nm
    · simp [pairsFrom, lookup', idxOf?, ha]
    · simp only [pairsFrom, lookup', List.map_cons, idxOf?, if_neg ha]
      rw [ih (b + 1)]
      cases h : idxOf? (l.map (fun a => a.name)) nm <;> simp [h]
      omega

theorem contains_eq_mem_keys (d : List (String × Nat)) (k : String) :
    (d.map Prod.fst).contains k = true ↔ k ∈ d.map Prod.fst := by
  simp [List.contains, List.elem_iff]

theorem dictInsert_keys (d : List (String × Nat)) (k : String) (v : Nat) :
    (dictInsert d k v).map Prod.fst =
      if k ∈ d.map Prod.fst then d.map Prod.fst else d.map Prod.fst ++ [k] := by
  by_cases hk : k ∈ d.map Prod.fst
  · rw [if_pos hk]
    unfold dictInsert
    rw [if_pos ((contains_eq_mem_keys d k).mpr hk)]
    rw [List.map_map]
    apply List.map_congr_left
    intro p _
    by_cases hp : p.1 = k
    · simp [Function.comp, hp]
    · simp [Function.comp, hp]
  · rw [if_neg hk]
    unfold dictInsert
    rw [if_neg (fun hc => hk ((contains_eq_mem_keys d k).mp hc))]
    simp

theorem mem_keys_dictInsert (d : List (String × Nat)) (k n : String) (v : Nat) :
    n ∈ (dictInsert d k v).map Prod.fst ↔ n ∈ d.map Prod.fst ∨ n = k := by
  rw [dictInsert_keys]
  by_cases hk : k ∈ d.map Prod.fst
  · rw [if_pos hk]
    constructor
    · exact Or.inl
    · rintro (h | rfl)
      · exact h
      · exact hk
  · rw [if_neg hk]
    simp

theorem keys_nodup_dictInsert (d : List (String × Nat)) (k : String) (v : Nat)
    (h : (d.map Prod.fst).Nodup) : ((dictInsert d k v).map Prod.fst).Nodup := by
  rw [dictInsert_keys]
  by_cases hk : k ∈ d.map Prod.fst
  · rw [if_pos hk]
    exact h
  · rw [if_neg hk]
    exact List.Nodup.append h (List.nodup_singleton k)
      (by intro x hx hxk
          rw [List.mem_singleton] at hxk
          exact hk (hxk ▸ hx))

theorem mem_keys_foldl (l : List (String × Nat)) :
    ∀ (d : List (String × Nat)) (n : String),
      n ∈ ((l.foldl (fun d p => dictInsert d p.1 p.2) d).map Prod.fst) ↔
        n ∈ d.map Prod.fst ∨ n ∈ l.map Prod.fst := by
  induction l with
  | nil => simp
  | cons p l ih =>
    intro d n
    rw [List.foldl_cons, ih (dictInsert d p.1 p.2) n, mem_keys_dictInsert]
    simp [or_assoc]

theorem keys_nodup_foldl (l : List (String × Nat)) :
    ∀ (d : List (String × Nat)), (d.map Prod.fst).Nodup →
      ((l.foldl (fun d p => dictInsert d p.1 p.2) d).map Prod.fst).Nodup := by
  induction l with
  | nil => exact fun d h => h
  | cons p l ih =>
    intro d h
    rw [List.foldl_cons]
    exact ih (dictInsert d p.1 p.2) (keys_nodup_dictInsert d p.1 p.2 h)

theorem foldl_dictInsert_nodup (l : List (String × Nat)) :
    ∀ (d : List (String × Nat)), (l.map Prod.fst).Nodup →
      (∀ k ∈ l.map Prod.fst, k ∉ d.map Prod.fst) →
      l.foldl (fun d p => dictInsert d p.1 p.2) d = d ++ l := by
  induction l with
  | nil => simp
  | cons p l ih =>
    intro d hnd hdisj
    rcases List.nodup_cons.mp hnd with ⟨hp, hl⟩
    rw [List.foldl_cons]
    have hpd : p.1 ∉ d.map Prod.fst := hdisj p.1 (by simp)
    have hins : dictInsert d p.1 p.2 = d ++ [p] := by
      unfold dictInsert
      rw [if_neg (fun hc => hpd ((contains_eq_mem_keys d p.1).mp hc))]
    have hdisj2 : ∀ k ∈ l.map Prod.fst, k ∉ (d ++ [p]).map Prod.fst := by
      intro k hk
      rw [List.map_append, List.mem_append]
      rintro (hkd | hkp)
      · exact hdisj k (List.mem_cons_of_mem _ hk) hkd
      · rw [List.map_singleton, List.mem_singleton] at hkp
        exact hp (hkp ▸ hk)
    rw [hins, ih (d ++ [p]) hl hdisj2, List.append_assoc]
    rfl

theorem buildTasks_eq_pairsFrom (apis : List SimulatedAPI) (b : Nat)
    (hnd : (apis.map (fun a => a.name)).Nodup) :
    buildTasks b apis = pairsFrom b apis := by
  unfold buildTasks
  rw [foldl_dictInsert_nodup (pairsFrom b apis) []]
  · rfl
  · rw [pairsFrom_keys]
    exact hnd
  · intro k _ hk
    simp at hk

theorem initState_heap (apis : List SimulatedAPI) :
    (initState apis).heap = apis.map initTask := by
  unfold initState submit_all
  by_cases h : apis.isEmpty <;> simp [h, emptyTM]

theorem initState_tasks (apis : List SimulatedAPI) :
    (initState apis).tasks = buildTasks 0 apis := by
  unfold initState submit_all
  by_cases h : apis.isEmpty <;> simp [h, emptyTM]

theorem lookup'_initState (apis : List SimulatedAPI)
    (hnd : (apis.map (fun a => a.name)).Nodup) (i : Nat) (a : SimulatedAPI)
    (ha : apis.get? i = some a) (nm : String) :
    lookup' (buildTasks 0 apis) nm = some i ↔ nm = a.name := by
  rw [buildTasks_eq_pairsFrom apis 0 hnd, lookup'_pairsFrom]
  have hni : (apis.map (fun a => a.name)).get? i = some a.name := by
    rw [List.get?_map, ha]
    rfl
  constructor
  · intro h
    rcases Option.map_eq_some'.mp h with ⟨j, hj, hji⟩
    have hj' : j = i := by omega
    subst hj'
    have hg := idxOf?_get? _ _ _ hj
    rw [hni] at hg
    exact (Option.some.inj hg).symm
  · intro h
    subst h
    rw [get?_idxOf? _ hnd _ _ hni]
    simp

theorem taskMap_run (apis : List SimulatedAPI)
    (hnd : (apis.map (fun a => a.name)).Nodup) (evs : List Event) :
    taskMap (run (initState apis) evs) =
      apis.map (fun a => (a.name, applyEvs (initTask a) (eventsFor a.name evs))) := by
  have htasks : (run (initState apis) evs).tasks = pairsFrom 0 apis := by
    rw [run_tasks, initState_tasks, buildTasks_eq_pairsFrom apis 0 hnd]
  apply List.ext
  intro i
  unfold taskMap
  rw [List.get?_map, htasks, pairsFrom_get?, List.get?_map]
  cases ha : apis.get? i with
  | none => rfl
  | some a =>
    simp only [Option.map_some']
    have hfil :
        evs.filter (fun e => decide (lookup' (initState apis).tasks e.name = some i)) =
          eventsFor a.name evs := by
      unfold eventsFor
      apply List.filter_congr
      intro e _
      rw [Bool.eq_iff_iff, decide_eq_true_eq, beq_iff_eq, initState_tasks]
      exact lookup'_initState apis hnd i a ha e.name
    have hh := run_heap (initState apis) evs i
    rw [hfil, initState_heap, List.get?_map, ha] at hh
    have hz : (0 : Nat) + i = i := Nat.zero_add i
    rw [hz]
    unfold heapAt
    rw [hh]
    rfl

theorem lookup'_map_name {α : Type} (apis : List SimulatedAPI)
    (hnd : (apis.map (fun a => a.name)).Nodup) (k : SimulatedAPI) (hk : k ∈ apis)
    (f : SimulatedAPI → α) :
    lookup' (apis.map (fun a => (a.name, f a))) k.name = some (f k) := by
  induction apis with
  | nil => cases hk
  | cons a l ih =>
    rw [List.map_cons] at hnd
    rcases List.nodup_cons.mp hnd with ⟨ha, hl⟩
    by_cases he : a.name = k.name
    · have hak : a = k := by
        rcases List.mem_cons.mp hk with h | h
        · exact h.symm
        · exact absurd (he ▸ List.mem_map_of_mem (fun x => x.name) h) ha
      subst hak
      simp [lookup', he]
    · have hkl : k ∈ l := by
        rcases List.mem_cons.mp hk with h | h
        · exact absurd (congrArg SimulatedAPI.name h).symm he
        · exact h
      simp only [List.map_cons, lookup', if_neg he]
      exact ih hl hkl

theorem seq_split (l1 l2 : List Event) (h : taskSeqOK (l1 ++ l2) = true) :
    l1 = [] ∨ (∃ nm t, l1 = [Event.start nm t]) ∨
      (∃ nm t nm2 t2 w, l1 = [Event.start nm t, Event.finish nm2 t2 w] ∧ t ≤ t2) := by
  cases l1 with
  | nil => exact Or.inl rfl
  | cons e l1 =>
    cases e with
    | finish nm t w => simp [taskSeqOK] at h
    | start nm t =>
      cases l1 with
      | nil => exact Or.inr (Or.inl ⟨nm, t, rfl⟩)
      | cons f l1 =>
        cases f with
        | start nm2 t2 => simp [taskSeqOK, seqTail] at h
        | finish nm2 t2 w =>
          rw [show (Event.start nm t :: Event.finish nm2 t2 w :: l1) ++ l2 =
                Event.start nm t :: Event.finish nm2 t2 w :: (l1 ++ l2) from rfl] at h
          simp only [taskSeqOK, seqTail, Bool.and_eq_true, decide_eq_true_eq,
            List.isEmpty_iff, List.append_eq_nil] at h
          rcases h with ⟨⟨h1, _⟩, h2⟩
          subst h1
          exact Or.inr (Or.inr ⟨nm, t, nm2, t2, w, rfl, h2⟩)

theorem isTerminal_iff (s : APIStatus) :
    isTerminal s = true ↔ (s = APIStatus.success ∨ s = APIStatus.error) := by
  cases s <;> simp [isTerminal]

theorem format1f_ne (e : Int) : format1f e ≠ "..." := by
  intro h
  unfold format1f at h
  have hd := congrArg String.data h
  rw [String.data_append] at hd
  have hlen := congrArg List.length hd
  rw [List.length_append] at hlen
  have hts : (toString e).data.length = 0 := by
    have h2 : (".0s" : String).data.length = 3 := rfl
    have h3 : ("..." : String).data.length = 3 := rfl
    omega
  rw [List.eq_nil_of_length_eq_zero hts, List.nil_append] at hd
  exact absurd hd (by decide)

/-! ## Claims -/

/-- Claim C9: every `Outcome` value constructed by the program — by
`simulate_api_call` on either branch, and by the worker wrapper on a caught
fault — has exactly one variant populated: `success = true` with data present
and error absent, or `success = false` with error present and data absent. -/
theorem c9_outcome_exclusive :
    (∀ (api : SimulatedAPI) (query_name : String) (time_range : TimeRange)
        (geo_box : GeoBox) (rnd : Randomness),
      exactlyOneVariant (simulate_api_call api query_name time_range geo_box rnd) = true) ∧
    (∀ msg : String, exactlyOneVariant (exnResult msg) = true) := by
  constructor
  · intro api query_name time_range geo_box rnd
    unfold simulate_api_call
    by_cases h : rnd.failRoll < api.failure_rate <;> simp [h, exactlyOneVariant]
  · intro msg
    rfl

theorem shutdown_tasks (m : TMState) : (shutdown m).tasks = m.tasks := by
  unfold shutdown
  cases m.executor <;> rfl

theorem shutdown_heap (m : TMState) : (shutdown m).heap = m.heap := by
  unfold shutdown
  cases m.executor <;> rfl

theorem step_shutdown_comm (m : TMState) (e : Event) :
    step (shutdown m) e = shutdown (step m e) := by
  obtain ⟨h, t, ex⟩ := m
  cases ex with
  | none =>
    rw [show shutdown ⟨h, t, none⟩ = ⟨h, t, none⟩ from rfl]
    unfold step
    cases hl : lookup' t e.name <;> rfl
  | some n =>
    rw [show shutdown ⟨h, t, some n⟩ = ⟨h, t, none⟩ from rfl]
    unfold step
    cases hl : lookup' t e.name <;> rfl

/-- Claim C8: `shutdown()` is safe to call whether or not all workers have
finished and is idempotent: a second (or any later) call is a no-op that does
not raise (it is a total function), `get_tasks()` still returns the last-known
state of every task after any number of shutdown calls, and shutdown does not
interfere with workers still running (it commutes with their steps). -/
theorem c8_shutdown_idempotent :
    ∀ m : TMState,
      shutdown (shutdown m) = shutdown m ∧
      get_tasks (shutdown m) = get_tasks m ∧
      taskMap (shutdown m) = taskMap m ∧
      ∀ e : Event, step (shutdown m) e = shutdown (step m e) := by
  intro m
  refine ⟨?_, ?_, ?_, fun e => step_shutdown_comm m e⟩
  · obtain ⟨h, t, ex⟩ := m
    cases ex <;> rfl
  · exact shutdown_tasks m
  · unfold taskMap
    rw [shutdown_tasks, shutdown_heap]

/-- Claim C3: `is_complete()` returns true iff the task map is non-empty and
every task's status is terminal (Succeeded or Failed); immediately after
`submit_all` with a non-empty unit list (unique ids) and before any worker has
run it returns false (all tasks are Pending), and on a manager with an empty
task map it returns false. -/
theorem c3_is_complete_spec :
    (∀ m : TMState, is_complete m = true ↔
        (m.tasks ≠ [] ∧ ∀ p ∈ taskMap m,
          p.2.status = APIStatus.success ∨ p.2.status = APIStatus.error)) ∧
    (∀ apis : List SimulatedAPI, (apis.map (fun a => a.name)).Nodup → apis ≠ [] →
        is_complete (initState apis) = false) ∧
    is_complete emptyTM = false := by
  refine ⟨?_, ?_, rfl⟩
  · intro m
    unfold is_complete
    by_cases h : m.tasks.isEmpty = true
    · have ht := List.isEmpty_iff.mp h
      simp [h, ht]
    · have ht : m.tasks ≠ [] := fun hh => h (by rw [hh]; rfl)
      rw [if_neg h]
      rw [List.all_eq_true]
      constructor
      · intro hall
        exact ⟨ht, fun p hp => (isTerminal_iff _).mp (hall p hp)⟩
      · rintro ⟨_, hall⟩ p hp
        exact (isTerminal_iff _).mpr (hall p hp)
  · intro apis hnd hne
    have hb := taskMap_run apis hnd []
    have hb' : taskMap (initState apis) = apis.map (fun a => (a.name, initTask a)) := by
      simpa [eventsFor, applyEvs] using hb
    cases apis with
    | nil => exact absurd rfl hne
    | cons a rest =>
      have hne2 : (initState (a :: rest)).tasks.isEmpty = false := by
        rw [initState_tasks, buildTasks_eq_pairsFrom _ _ hnd]
        rfl
      unfold is_complete
      rw [if_neg (by simp [hne2])]
      rw [hb']
      simp [initTask, isTerminal]

/-- Witness for C3: a concrete fresh two-unit batch is not complete. -/
theorem c3_is_complete_spec_witness :
    ((apisAB.map (fun a => a.name)).Nodup ∧ apisAB ≠ []) ∧
      is_complete (initState apisAB) = false :=
  ⟨⟨by decide, by decide⟩, c3_is_complete_spec.2.1 apisAB (by decide) (by decide)⟩

theorem elapsed_time_none_iff (t : APITask) (now : Int) :
    elapsed_time t now = none ↔ t.start_time = none := by
  unfold elapsed_time
  cases t.start_time <;> simp

/-- Claim C10, counterexample: a task whose `end_time` is set to the value `0`
(with `start_time = 3`) has `elapsed_time` computed against the current clock
(`10` and `50` give `7` and `47`), not the claimed `end_time - start_time = -3`:
the source tests `if self.end_time`, and `0` is falsy in Python. -/
theorem c10_elapsed_counterexample :
    elapsed_time taskZ 10 = some 7 ∧ elapsed_time taskZ 50 = some 47 ∧
      (some (7 : Int) ≠ some ((0 : Int) - 3)) := by
  refine ⟨by decide, by decide, by decide⟩

/-- Claim C10 (amended): `elapsed_time` is `None` iff `start_time` is `None`,
and `elapsed_time_str` returns `"..."` iff `start_time` is `None`; and for
every task whose `start_time` is set and whose `end_time` is set to a nonzero
value `et`, `elapsed_time` equals `et - start_time` independent of the current
clock (when `end_time` is the falsy value `0` the current clock is used
instead). -/
theorem c10_elapsed_amended (t : APITask) (now : Int) :
    ((elapsed_time t now = none) ↔ t.start_time = none) ∧
    ((elapsed_time_str t now = "...") ↔ t.start_time = none) ∧
    (∀ st et : Int, t.start_time = some st → t.end_time = some et → et ≠ 0 →
      elapsed_time t now = some (et - st)) := by
  refine ⟨elapsed_time_none_iff t now, ?_, ?_⟩
  · unfold elapsed_time_str
    cases he : elapsed_time t now with
    | none =>
      simp [(elapsed_time_none_iff t now).mp he]
    | some e =>
      constructor
      · intro h
        exact absurd h (format1f_ne e)
      · intro h
        rw [(elapsed_time_none_iff t now).mpr h] at he
        cases he
  · intro st et h1 h2 h3
    unfold elapsed_time
    rw [h1, h2]
    simp [h3]

/-- Witness for C10 (amended): a task with `start_time = 3`, `end_time = 5`
has elapsed time `5 - 3` at any clock. -/
theorem c10_elapsed_amended_witness :
    (taskW.start_time = some 3 ∧ taskW.end_time = some 5 ∧ (5 : Int) ≠ 0) ∧
      elapsed_time taskW 100 = some (5 - 3) :=
  ⟨⟨rfl, rfl, by decide⟩, (c10_elapsed_amended taskW 100).2.2 3 5 rfl rfl (by decide)⟩

/-- Claim C4, counterexample: a batch holding two units that share the id
`A` is not rejected: `submit_all` raises nothing, hands both units to the
pool (two workers run), and installs a task map with a single entry — the
dict comprehension silently deduplicates, so the misuse is not reported. -/
theorem c4_submit_validation_counterexample :
    (submit_all emptyTM [apiA, apiA2]).raised = none ∧
    (submit_all emptyTM [apiA, apiA2]).submitted.length = 2 ∧
    ((submit_all emptyTM [apiA, apiA2]).state.tasks.map Prod.fst) = ["A"] := by
  refine ⟨by decide, by decide, by decide⟩

/-- Claim C4 (amended): `submit_all` validates nothing. With an empty unit
list the task map is first replaced by an empty map and then pool construction
raises `ValueError` synchronously, with no worker submitted; with a non-empty
unit list (duplicates included) nothing is raised, one worker per element is
submitted, and the installed task map holds exactly one entry per distinct id. -/
theorem c4_submit_validation_amended :
    (∀ m : TMState,
      (submit_all m []).raised = some "ValueError: max_workers must be greater than 0" ∧
      (submit_all m []).submitted = [] ∧
      (submit_all m []).state.tasks = []) ∧
    (∀ (m : TMState) (apis : List SimulatedAPI), apis ≠ [] →
      (submit_all m apis).raised = none ∧
      (submit_all m apis).submitted = apis ∧
      ((submit_all m apis).state.tasks.map Prod.fst).Nodup ∧
      (∀ n : String, n ∈ (submit_all m apis).state.tasks.map Prod.fst ↔
        n ∈ apis.map (fun a => a.name))) := by
  constructor
  · intro m
    exact ⟨rfl, rfl, rfl⟩
  · intro m apis hne
    have h0 : apis.isEmpty = false := by
      cases apis with
      | nil => exact absurd rfl hne
      | cons a l => rfl
    have hst : (submit_all m apis).state.tasks = buildTasks m.heap.length apis := by
      unfold submit_all
      by_cases h : apis.isEmpty <;> simp [h]
    refine ⟨by simp [submit_all, h0], by simp [submit_all, h0], ?_, ?_⟩
    · rw [hst]
      unfold buildTasks
      exact keys_nodup_foldl (pairsFrom m.heap.length apis) [] (by simp)
    · intro n
      rw [hst]
      unfold buildTasks
      rw [mem_keys_foldl]
      simp [pairsFrom_keys]

/-- Witness for C4 (amended): the concrete duplicate batch of the
counterexample is accepted with both workers submitted. -/
theorem c4_submit_validation_amended_witness :
    (([apiA, apiA2] : List SimulatedAPI) ≠ []) ∧
      (submit_all emptyTM [apiA, apiA2]).submitted = [apiA, apiA2] :=
  ⟨by decide, (c4_submit_validation_amended.2 emptyTM [apiA, apiA2] (by decide)).2.1⟩

/-- Claim C5, counterexample: the snapshot returned by `get_tasks` before the
worker of unit `A` starts contains the Pending record for `A`; after the
worker's first locked section the very same snapshot reads back the Running
record — `dict(self.tasks)` is a shallow copy, so a subsequent mutation by a
worker changes a field of a task record in the already-returned snapshot. -/
theorem c5_snapshot_counterexample :
    lookup' (readSnapshot (get_tasks (initState [apiA])) (initState [apiA]).heap) "A" =
      some (initTask apiA) ∧
    lookup' (readSnapshot (get_tasks (initState [apiA]))
        (step (initState [apiA]) (Event.start "A" 5)).heap) "A" =
      some { api := apiA, status := APIStatus.running, start_time := some 5,
             end_time := none, result := none } ∧
    (initTask apiA).status ≠ APIStatus.running := by
  refine ⟨by decide, by decide, by decide⟩

/-- Claim C5 (amended): `get_tasks` returns a shallow copy — the task records
are shared with the manager, so reading a returned snapshot after further
worker steps yields the tasks' current states, not the snapshot-time states;
a later `submit_all` allocates fresh records and leaves every record reachable
from the old snapshot unchanged. -/
theorem c5_snapshot_amended :
    (∀ (m : TMState) (evs : List Event),
      readSnapshot (get_tasks m) ((run m evs).heap) = taskMap (run m evs)) ∧
    (∀ (m : TMState) (apis : List SimulatedAPI) (r : Nat), r < m.heap.length →
      (submit_all m apis).state.heap.get? r = m.heap.get? r) := by
  constructor
  · intro m evs
    unfold readSnapshot taskMap get_tasks
    rw [run_tasks]
  · intro m apis r hr
    have hh : (submit_all m apis).state.heap = m.heap ++ apis.map initTask := by
      unfold submit_all
      by_cases h : apis.isEmpty <;> simp [h]
    rw [hh, List.get?_append hr]

/-- Witness for C5 (amended): a later `submit_all` leaves the record at
reference `0` of an existing one-unit batch unchanged. -/
theorem c5_snapshot_amended_witness :
    (0 < (initState [apiA]).heap.length) ∧
      (submit_all (initState [apiA]) [apiB]).state.heap.get? 0 =
        (initState [apiA]).heap.get? 0 :=
  ⟨by decide, c5_snapshot_amended.2 (initState [apiA]) [apiB] 0 (by decide)⟩

/-- Claim C1, counterexample: a work call that raises a fault whose
description `str(e)` is empty (as for a bare `Exception()`) leaves task `A`
Failed with the error message `""` — the recorded message is empty, not
non-empty as claimed. -/
theorem c1_worker_fault_counterexample :
    lookup' (taskMap (run (initState apisAB) evsAB)) "A" =
      some { api := apiA, status := APIStatus.error, start_time := some 0,
             end_time := some 2,
             result := some { success := false, data := none, error := some "" } } ∧
    ("" : String).isEmpty = true := by
  refine ⟨by decide, rfl⟩

/-- Claim C1 (amended): if the work call for unit `k` raises a fault with
description `msg`, the worker wrapper catches it (the trace semantics is
total: the exception never escapes), records for `k` a Failure outcome whose
error message is exactly `msg` — hence non-empty whenever the fault's
description is non-empty — sets `k`'s status to Failed with both timestamps,
and every other unit's task state is exactly what its own events alone
determine (unaffected by `k`'s fault). -/
theorem c1_worker_fault_amended (apis : List SimulatedAPI)
    (hnd : (apis.map (fun a => a.name)).Nodup)
    (evs : List Event) (k : SimulatedAPI) (hk : k ∈ apis) (t1 t2 : Int) (msg : String)
    (hexn : eventsFor k.name evs =
      [Event.start k.name t1, Event.finish k.name t2 (WorkResult.exn msg)]) :
    lookup' (taskMap (run (initState apis) evs)) k.name =
      some { api := k, status := APIStatus.error, start_time := some t1,
             end_time := some t2,
             result := some { success := false, data := none, error := some msg } } ∧
    (∀ a ∈ apis, a.name ≠ k.name →
      lookup' (taskMap (run (initState apis) evs)) a.name =
        some (applyEvs (initTask a) (eventsFor a.name evs))) := by
  constructor
  · rw [taskMap_run apis hnd evs, lookup'_map_name apis hnd k hk, hexn]
    rfl
  · intro a ha _
    rw [taskMap_run apis hnd evs, lookup'_map_name apis hnd a ha]

/-- Witness for C1 (amended): in the concrete trace `evsBoom` the fault
description `boom` is recorded verbatim for unit `A`. -/
theorem c1_worker_fault_amended_witness :
    ((apisAB.map (fun a => a.name)).Nodup ∧ apiA ∈ apisAB ∧
      eventsFor apiA.name evsBoom =
        [Event.start apiA.name 0, Event.finish apiA.name 2 (WorkResult.exn "boom")]) ∧
    lookup' (taskMap (run (initState apisAB) evsBoom)) apiA.name =
      some { api := apiA, status := APIStatus.error, start_time := some 0,
             end_time := some 2,
             result := some { success := false, data := none, error := some "boom" } } :=
  ⟨⟨by decide, by decide, by decide⟩,
    (c1_worker_fault_amended apisAB (by decide) evsBoom apiA (by decide) 0 2 "boom"
      (by decide)).1⟩

/-- Claim C7: for every `submit_all` on a fresh manager with a non-empty,
uniquely named unit list: nothing is raised; the installed task map holds
exactly one Pending task per unit, with no timestamps and no outcome; the
pool is sized to the number of units; exactly one worker per unit is handed
to the pool; and in every well-formed complete trace of the batch the work
function is invoked exactly once per unit. -/
theorem c7_submit_effect (apis : List SimulatedAPI)
    (hnd : (apis.map (fun a => a.name)).Nodup) (hne : apis ≠ []) :
    (submit_all emptyTM apis).raised = none ∧
    taskMap (initState apis) =
      apis.map (fun a => (a.name,
        { api := a, status := APIStatus.pending, start_time := none,
          end_time := none, result := none })) ∧
    (initState apis).executor = some apis.length ∧
    (submit_all emptyTM apis).submitted = apis ∧
    (∀ evs : List Event,
      validTrace (apis.map (fun a => a.name)) evs = true →
      completeTrace (apis.map (fun a => a.name)) evs = true →
      ∀ a ∈ apis, workCalls a.name evs = 1) := by
  have h0 : apis.isEmpty = false := by
    cases apis with
    | nil => exact absurd rfl hne
    | cons a l => rfl
  refine ⟨by simp [submit_all, h0], ?_, ?_, by simp [submit_all, h0], ?_⟩
  · exact taskMap_run apis hnd []
  · unfold initState submit_all
    simp [h0]
  · intro evs hv hc a ha
    have hseq : taskSeqOK (eventsFor a.name evs) = true := by
      have hvv := hv
      rw [validTrace, Bool.and_eq_true, List.all_eq_true] at hvv
      have h2 := hvv.2
      rw [List.all_eq_true] at h2
      exact h2 a.name (List.mem_map_of_mem _ ha)
    have hone : 1 ≤ workCalls a.name evs := by
      rw [completeTrace, List.all_eq_true] at hc
      have := hc a.name (List.mem_map_of_mem _ ha)
      simpa using this
    rcases seq_split (eventsFor a.name evs) [] (by rwa [List.append_nil]) with
      h | ⟨nm, t, h⟩ | ⟨nm, t, nm2, t2, w, h, _⟩
    · rw [workCalls, h] at hone
      simp at hone
    · rw [workCalls, h] at hone
      simp [Event.isFinish] at hone
    · rw [workCalls, h]
      rfl

/-- Witness for C7: the concrete two-unit batch `apisAB` with the complete
trace `evsAB`. -/
theorem c7_submit_effect_witness :
    ((apisAB.map (fun a => a.name)).Nodup ∧ apisAB ≠ [] ∧
      validTrace (apisAB.map (fun a => a.name)) evsAB = true ∧
      completeTrace (apisAB.map (fun a => a.name)) evsAB = true ∧ apiA ∈ apisAB) ∧
    workCalls apiA.name evsAB = 1 :=
  ⟨⟨by decide, by decide, by decide, by decide, by decide⟩,
    (c7_submit_effect apisAB (by decide) (by decide)).2.2.2.2 evsAB (by decide) (by decide)
      apiA (by decide)⟩

/-- Claim C2: at every lock-granularity observation point of a well-formed
batch trace (after any prefix of locked sections), every task's status is one
of Pending, Running, Succeeded, Failed, and the field-presence invariant
holds: `end_time` set iff terminal, `start_time` set iff not Pending, the
outcome present iff terminal, and `end_time ≥ start_time` when both present. -/
theorem c2_state_invariant (apis : List SimulatedAPI)
    (hnd : (apis.map (fun a => a.name)).Nodup)
    (evs pre suf : List Event)
    (hv : validTrace (apis.map (fun a => a.name)) evs = true)
    (hsplit : evs = pre ++ suf) :
    ((taskMap (run (initState apis) pre)).all
      (fun p => statusOK4 p.2.status && taskInv p.2)) = true := by
  rw [taskMap_run apis hnd pre, List.all_eq_true]
  intro p hp
  rcases List.mem_map.mp hp with ⟨a, ha, rfl⟩
  have hseq : taskSeqOK (eventsFor a.name evs) = true := by
    have hvv := hv
    rw [validTrace, Bool.and_eq_true, List.all_eq_true] at hvv
    have h2 := hvv.2
    rw [List.all_eq_true] at h2
    exact h2 a.name (List.mem_map_of_mem _ ha)
  rw [hsplit] at hseq
  unfold eventsFor at hseq
  rw [List.filter_append] at hseq
  show (statusOK4 (applyEvs (initTask a) (eventsFor a.name pre)).status &&
    taskInv (applyEvs (initTask a) (eventsFor a.name pre))) = true
  unfold eventsFor
  rcases seq_split _ _ hseq with h | ⟨nm, t, h⟩ | ⟨nm, t, nm2, t2, w, h, hle⟩
  · rw [h]
    rfl
  · rw [h]
    rfl
  · rw [h]
    cases w with
    | ok r =>
      cases hr : r.success <;>
        simp [applyEvs, applyEv, initTask, statusOK4, taskInv, isTerminal, hr, hle]
    | exn msg =>
      simp [applyEvs, applyEv, initTask, statusOK4, taskInv, isTerminal, exnResult, hle]

/-- Witness for C2: the invariant holds at the mid-flight observation point
`preAB` of the concrete trace `evsAB`. -/
theorem c2_state_invariant_witness :
    ((apisAB.map (fun a => a.name)).Nodup ∧
      validTrace (apisAB.map (fun a => a.name)) evsAB = true ∧
      evsAB = preAB ++ sufAB) ∧
    ((taskMap (run (initState apisAB) preAB)).all
      (fun p => statusOK4 p.2.status && taskInv p.2)) = true :=
  ⟨⟨by decide, by decide, by decide⟩,
    c2_state_invariant apisAB (by decide) evsAB preAB sufAB (by decide) (by decide)⟩

/-- Claim C6: along any well-formed batch trace, each task's status sequence
is totally ordered along Pending → Running → (Succeeded or Failed): one step
never lowers the rank, never changes a terminal status (in particular never
switches Succeeded and Failed, and never reverts to Running or Pending), and
a status that becomes terminal in a step was Running just before. -/
theorem c6_status_monotone (apis : List SimulatedAPI)
    (hnd : (apis.map (fun a => a.name)).Nodup)
    (evs pre suf : List Event) (e : Event)
    (hv : validTrace (apis.map (fun a => a.name)) evs = true)
    (hsplit : evs = pre ++ e :: suf)
    (a : SimulatedAPI) (ha : a ∈ apis) (t t' : APITask)
    (h1 : lookup' (taskMap (run (initState apis) pre)) a.name = some t)
    (h2 : lookup' (taskMap (run (initState apis) (pre ++ [e]))) a.name = some t') :
    statusRank t.status ≤ statusRank t'.status ∧
    (isTerminal t.status = true → t'.status = t.status) ∧
    (isTerminal t'.status = true → t.status ≠ t'.status → t.status = APIStatus.running) := by
  rw [taskMap_run apis hnd pre, lookup'_map_name apis hnd a ha] at h1
  rw [taskMap_run apis hnd (pre ++ [e]), lookup'_map_name apis hnd a ha] at h2
  have ht : t = applyEvs (initTask a) (eventsFor a.name pre) := (Option.some.inj h1).symm
  have ht' : t' = applyEvs (initTask a) (eventsFor a.name (pre ++ [e])) :=
    (Option.some.inj h2).symm
  have happ : eventsFor a.name (pre ++ [e]) =
      eventsFor a.name pre ++ eventsFor a.name [e] := by
    unfold eventsFor
    rw [List.filter_append]
  have hseq : taskSeqOK (eventsFor a.name evs) = true := by
    have hvv := hv
    rw [validTrace, Bool.and_eq_true, List.all_eq_true] at hvv
    have h3 := hvv.2
    rw [List.all_eq_true] at h3
    exact h3 a.name (List.mem_map_of_mem _ ha)
  by_cases hen : e.name = a.name
  · have hE : eventsFor a.name [e] = [e] := by
      unfold eventsFor
      simp [List.filter_cons, hen]
    have hfull : eventsFor a.name evs =
        eventsFor a.name pre ++ (e :: eventsFor a.name suf) := by
      rw [hsplit]
      unfold eventsFor
      rw [List.filter_append]
      congr 1
      rw [List.filter_cons]
      simp [hen]
    rw [hfull] at hseq
    rcases seq_split _ _ hseq with h | ⟨nm, tt, h⟩ | ⟨nm, tt, nm2, tt2, w, h, hle⟩
    · rw [h] at hseq ht
      rw [happ, h, hE, List.nil_append] at ht'
      rw [List.nil_append] at hseq
      cases e with
      | finish nm3 t3 w => simp [taskSeqOK] at hseq
      | start nm3 t3 =>
        have hts : t.status = APIStatus.pending := by rw [ht]; rfl
        have hts' : t'.status = APIStatus.running := by rw [ht']; rfl
        rw [hts, hts']
        refine ⟨by decide, by decide, by decide⟩
    · rw [h] at hseq ht
      rw [happ, h, hE] at ht'
      cases e with
      | start nm3 t3 => simp [taskSeqOK, seqTail] at hseq
      | finish nm3 t3 w =>
        have hts : t.status = APIStatus.running := by rw [ht]; rfl
        cases w with
        | ok r =>
          cases hr : r.success with
          | true =>
            have hts' : t'.status = APIStatus.success := by
              rw [ht']
              simp [applyEvs, applyEv, hr]
            rw [hts, hts']
            refine ⟨by decide, by decide, by decide⟩
          | false =>
            have hts' : t'.status = APIStatus.error := by
              rw [ht']
              simp [applyEvs, applyEv, hr]
            rw [hts, hts']
            refine ⟨by decide, by decide, by decide⟩
        | exn msg =>
          have hts' : t'.status = APIStatus.error := by
            rw [ht']
            simp [applyEvs, applyEv]
          rw [hts, hts']
          refine ⟨by decide, by decide, by decide⟩
    · rw [h] at hseq
      simp [taskSeqOK, seqTail] at hseq
  · have hE : eventsFor a.name [e] = [] := by
      unfold eventsFor
      simp [List.filter_cons, hen]
    rw [happ, hE, List.append_nil, ← ht] at ht'
    subst ht'
    exact ⟨le_refl _, fun _ => rfl, fun _ hne => absurd rfl hne⟩

/-- Witness for C6: the step `finish A` of the concrete trace `evsAB` takes
unit `A` from Running to Failed without lowering the rank. -/
theorem c6_status_monotone_witness :
    ((apisAB.map (fun a => a.name)).Nodup ∧
      validTrace (apisAB.map (fun a => a.name)) evsAB = true ∧
      evsAB = preAB ++ (Event.finish "A" 2 (WorkResult.exn "") ::
        [Event.finish "B" 3 (WorkResult.ok okResult)]) ∧
      apiA ∈ apisAB ∧
      lookup' (taskMap (run (initState apisAB) preAB)) apiA.name = some tRun ∧
      lookup' (taskMap (run (initState apisAB)
        (preAB ++ [Event.finish "A" 2 (WorkResult.exn "")]))) apiA.name = some tErr) ∧
    (statusRank tRun.status ≤ statusRank tErr.status ∧
      (isTerminal tRun.status = true → tErr.status = tRun.status) ∧
      (isTerminal tErr.status = true → tRun.status ≠ tErr.status →
        tRun.status = APIStatus.running)) :=
  ⟨⟨by decide, by decide, by decide, by decide, by decide, by decide⟩,
    c6_status_monotone apisAB (by decide) evsAB preAB
      [Event.finish "B" 3 (WorkResult.ok okResult)]
      (Event.finish "A" 2 (WorkResult.exn "")) (by decide) (by decide)
      apiA (by decide) tRun tErr (by decide) (by decide)⟩
